import Mathlib

/-!
Shallow embedding of the `stq-db` statement builders, repo pipeline, ACL
engines and connection pool of this repository, together with proofs of the
specification claims about them.

The definitions mirror `src/db/src/statement.rs`, `src/db/src/repo.rs`,
`src/db/src/pool.rs` and `src/acl/src/lib.rs`.  SQL parameter values
(`Box<ToSql>` in the source) are modelled by the `Val` type; `BTreeMap` is
modelled by an association list kept in sorted key order by its `insert`
operation; the future chains of `repo.rs` and `pool.rs` are sequentialized
into `Except`-valued functions threading an explicit connection state.
-/

namespace Stq

/-- A SQL parameter value (`Box<ToSql + 'static>` in the source). -/
inductive Val where
  | int (n : Int)
  | intList (l : List Int)
deriving DecidableEq

/-! ### Decimal rendering, as `format!("{}", n)` renders unsigned integers.
Implemented with explicit fuel so that it is kernel-computable. -/

def digitChar (d : Nat) : Char := Char.ofNat (48 + d)

def natReprCharsFuel : Nat → Nat → List Char
  | 0, _ => []
  | fuel + 1, n => if n < 10 then [digitChar n] else natReprCharsFuel fuel (n / 10) ++ [digitChar (n % 10)]

def natReprChars (n : Nat) : List Char := natReprCharsFuel (n + 1) n

def natRepr (n : Nat) : String := String.mk (natReprChars n)

/-- Decimal rendering of a signed integer (`format!("{}", i)` for `i32`). -/
def intRepr (i : Int) : String := if i < 0 then "-" ++ natRepr (-i).toNat else natRepr i.toNat

/-! ### `statement.rs` data model -/

/-- `SelectOperation` from `statement.rs`. -/
inductive SelectOperation where
  | Count
deriving DecidableEq

def SelectOperation.to_sql : SelectOperation → String
  | .Count => "count"

/-- `FilteredOperation` from `statement.rs`. -/
inductive FilteredOperation where
  | Select (op : Option SelectOperation) (limit : Option Int)
  | Delete
deriving DecidableEq

/-- `ComparisonMode` from `statement.rs`. -/
inductive ComparisonMode where
  | LT
  | LTE
  | EQ
  | GTE
  | GT
  | IN
deriving DecidableEq

/-- The `fmt::Display` rendering of a comparison mode. -/
def ComparisonMode.sqlSym : ComparisonMode → String
  | .LT => "<"
  | .LTE => "<="
  | .EQ => "="
  | .GTE => ">="
  | .GT => ">"
  | .IN => "in"

/-- `ComparisonMode::arg` from `statement.rs`. -/
def ComparisonMode.arg (m : ComparisonMode) (arg_number : Nat) : String :=
  match m with
  | .IN => "= any($" ++ natRepr arg_number ++ ")"
  | _ => m.sqlSym ++ " $" ++ natRepr arg_number

abbrev ColumnFilters := List (ComparisonMode × Val)

/-- `Filters = BTreeMap<&'static str, ColumnFilters>`, modelled as an
association list iterated (and kept) in sorted key order. -/
abbrev Filters := List (String × ColumnFilters)

/-- Lexicographic comparison of character lists: the `Ord` order of Rust
string slices, used by `BTreeMap<&'static str, _>` for its key order. -/
def charListLt : List Char → List Char → Bool
  | [], [] => false
  | [], _ :: _ => true
  | _ :: _, [] => false
  | a :: as, b :: bs => if a < b then true else if a = b then charListLt as bs else false

/-- Lexicographic order on strings (Rust `&str: Ord`). -/
def strLtB (a b : String) : Bool := charListLt a.toList b.toList

/-- `BTreeMap::insert`: replaces the value at an existing key, otherwise
inserts at the sorted position. -/
def insertSorted {V : Type} (k : String) (v : V) : List (String × V) → List (String × V)
  | [] => [(k, v)]
  | (k', v') :: rest =>
    if strLtB k k' then (k, v) :: (k', v') :: rest
    else if k = k' then (k, v) :: rest
    else (k', v') :: insertSorted k v rest

/-- The traversal order of the nested loop in `build_where_from_filters`:
per map entry in key order, inner filters in list order. -/
def flatFilters (filters : Filters) : List (String × ComparisonMode × Val) :=
  filters.flatMap (fun p => p.2.map (fun mv => (p.1, mv.1, mv.2)))

/-- The loop body of `build_where_from_filters`, as a recursion over the
flattened filter list, threading the ` AND ` separator flag and the
1-based argument counter. -/
def buildWhereGo : List (String × ComparisonMode × Val) → Nat → Bool → String × List Val
  | [], _, _ => ("", [])
  | (col, mode, value) :: rest, i, started =>
    let piece := (if started then " AND " else "") ++ col ++ " " ++ mode.arg i
    let r := buildWhereGo rest (i + 1) true
    (piece ++ r.1, value :: r.2)

/-- `build_where_from_filters` from `statement.rs`. -/
def build_where_from_filters (filters : Filters) (i : Nat) : String × List Val :=
  buildWhereGo (flatFilters filters) i false

/-- `RangeLimit` from `statement.rs`. -/
structure RangeLimit where
  value : Val
  inclusive : Bool
deriving DecidableEq

/-- `Range` from `statement.rs`. -/
inductive Range where
  | Exact (v : Val)
  | From (lim : RangeLimit)
  | To (lim : RangeLimit)
  | Between (lo hi : RangeLimit)
  | In (vs : List Int)
deriving DecidableEq

/-- `FilteredOperationBuilder` from `statement.rs`. -/
structure FilteredOperationBuilder where
  table : String
  extra : String
  filters : Filters
  limit : Option Int
deriving DecidableEq

/-- `FilteredOperationBuilder::new`. -/
def FilteredOperationBuilder.new (table : String) : FilteredOperationBuilder :=
  { table := table, extra := "", filters := [], limit := none }

/-- `FilteredOperationBuilder::with_filter`. -/
def FilteredOperationBuilder.with_filter (self : FilteredOperationBuilder) (column : String)
    (range : Range) : FilteredOperationBuilder :=
  let new_filters : ColumnFilters :=
    match range with
    | .Exact v => [(.EQ, v)]
    | .From f => [((if f.inclusive then .GTE else .GT), f.value)]
    | .To t => [((if t.inclusive then .LTE else .LT), t.value)]
    | .Between f t =>
      [((if f.inclusive then .GTE else .GT), f.value),
       ((if t.inclusive then .LTE else .LT), t.value)]
    | .In vs => [(.IN, Val.intList vs)]
  { self with filters := insertSorted column new_filters self.filters }

/-- `FilteredOperationBuilder::with_limit`. -/
def FilteredOperationBuilder.with_limit (self : FilteredOperationBuilder) (limit : Option Int) :
    FilteredOperationBuilder :=
  { self with limit := limit }

/-- `FilteredOperationBuilder::with_extra`. -/
def FilteredOperationBuilder.with_extra (self : FilteredOperationBuilder) (extra : String) :
    FilteredOperationBuilder :=
  { self with extra := extra }

/-- `FilteredOperationBuilder::build`. -/
def FilteredOperationBuilder.build (self : FilteredOperationBuilder) (op : FilteredOperation) :
    String × List Val :=
  let w := build_where_from_filters self.filters 1
  let head : String :=
    match op with
    | .Select sop _ =>
      match sop with
      | none => "SELECT *"
      | some sop => "SELECT " ++ sop.to_sql ++ "(*)"
    | .Delete => "DELETE"
  let tail : String :=
    match op with
    | .Delete => " RETURNING *"
    | .Select _ limit =>
      match limit with
      | some v => " LIMIT " ++ intRepr v
      | none => ""
  (head ++ " FROM " ++ self.table ++
      (if w.1 ≠ "" then " WHERE " ++ w.1 else "") ++
      (if self.extra ≠ "" then " " ++ self.extra else "") ++
      tail ++ ";",
    w.2)

/-- `InsertBuilder` from `statement.rs`. -/
structure InsertBuilder where
  table : String
  extra : String
  values : List (String × Val)
deriving DecidableEq

/-- `InsertBuilder::new`. -/
def InsertBuilder.new (table : String) : InsertBuilder :=
  { table := table, extra := "", values := [] }

/-- `InsertBuilder::with_arg`. -/
def InsertBuilder.with_arg (self : InsertBuilder) (k : String) (v : Val) : InsertBuilder :=
  { self with values := insertSorted k v self.values }

/-- `InsertBuilder::with_extra`. -/
def InsertBuilder.with_extra (self : InsertBuilder) (extra : String) : InsertBuilder :=
  { self with extra := extra }

/-- The column/argument loop of `InsertBuilder::build`: produces the
column list string, the `$n` list string and the argument vector. -/
def insertColsGo : List (String × Val) → Nat → String × String × List Val
  | [], _ => ("", "", [])
  | (col, arg) :: rest, i =>
    let arg_index := i + 1
    let sep : String := if arg_index > 1 then ", " else ""
    let r := insertColsGo rest (i + 1)
    (sep ++ col ++ r.1, sep ++ "$" ++ natRepr arg_index ++ r.2.1, arg :: r.2.2)

/-- `InsertBuilder::build`. -/
def InsertBuilder.build (self : InsertBuilder) : String × List Val :=
  let r := insertColsGo self.values 0
  let query := "INSERT INTO " ++ self.table ++ " (" ++ r.1 ++ ") VALUES (" ++ r.2.1 ++ ")" ++
    (if self.extra ≠ "" then " " ++ self.extra else "") ++ " RETURNING *;"
  (query, r.2.2)

/-- `UpdateBuilder` from `statement.rs`. -/
structure UpdateBuilder where
  extra : String
  values : List (String × Val)
  filters : FilteredOperationBuilder
deriving DecidableEq

/-- `UpdateBuilder::with_value`. -/
def UpdateBuilder.with_value (self : UpdateBuilder) (column : String) (value : Val) : UpdateBuilder :=
  { self with values := insertSorted column value self.values }

/-- `UpdateBuilder::with_extra`. -/
def UpdateBuilder.with_extra (self : UpdateBuilder) (extra : String) : UpdateBuilder :=
  { self with extra := extra }

/-- The SET-clause loop of `UpdateBuilder::build`: `first` tells whether
`value_string` is still empty (so `SET ` is pushed instead of `, `). -/
def buildSetGo : List (String × Val) → Nat → Bool → String × List Val
  | [], _, _ => ("", [])
  | (col, arg) :: rest, i, first =>
    let piece := (if first then "SET " else ", ") ++ col ++ " = $" ++ natRepr i
    let r := buildSetGo rest (i + 1) false
    (piece ++ r.1, arg :: r.2)

/-- `UpdateBuilder::build`: an UPDATE query if update values are set and a
SELECT query otherwise. -/
def UpdateBuilder.build (self : UpdateBuilder) : String × List Val :=
  if self.values = [] then self.filters.build (.Select none none)
  else
    let s := buildSetGo self.values 1 true
    let w := build_where_from_filters self.filters.filters (self.values.length + 1)
    let query := "UPDATE " ++ self.filters.table ++ " " ++ s.1 ++
      (if w.1 ≠ "" then " WHERE " ++ w.1 else "") ++
      (if self.extra ≠ "" then " " ++ self.extra else "") ++
      " RETURNING *;"
    (query, s.2 ++ w.2)

/-- `From<FilteredOperationBuilder> for UpdateBuilder`. -/
def UpdateBuilder.fromFiltered (v : FilteredOperationBuilder) : UpdateBuilder :=
  { extra := v.extra, filters := v, values := [] }

/-! ### Scanning a SQL string for its `$n` placeholders -/

/-- Value of a digit run (most significant first), accumulated decimally. -/
def digitsVal (acc : Nat) : List Char → Nat
  | [] => acc
  | c :: cs => digitsVal (acc * 10 + (c.toNat - 48)) cs

/-- Fuelled scanner: collects the numeric index of every `$`-digit-run in the
character list, left to right. -/
def phScanFuel : Nat → List Char → List Nat
  | 0, _ => []
  | _ + 1, [] => []
  | fuel + 1, c :: cs =>
    if c = '$' then
      digitsVal 0 (cs.takeWhile Char.isDigit) :: phScanFuel fuel (cs.dropWhile Char.isDigit)
    else phScanFuel fuel cs

def phScan (l : List Char) : List Nat := phScanFuel l.length l

/-- The list of `$n` placeholder indices of a SQL string, in textual order. -/
def placeholders (s : String) : List Nat := phScan s.toList

/-- A character list containing no `$`. -/
def noDollarL (l : List Char) : Prop := ∀ c ∈ l, c ≠ '$'

/-- A string containing no `$`. -/
def noDollar (s : String) : Prop := noDollarL s.toList

/-- A character list that does not start with a decimal digit. -/
def headNotDigit (l : List Char) : Prop := ∀ c, l.head? = some c → c.isDigit = false

instance noDollarL.dec (l : List Char) : Decidable (noDollarL l) :=
  List.decidableBAll (fun c => c ≠ '$') l

instance noDollar.dec (s : String) : Decidable (noDollar s) :=
  noDollarL.dec s.toList

theorem length_dropWhile_le {α : Type} (p : α → Bool) (l : List α) :
    (l.dropWhile p).length ≤ l.length := by
  induction l with
  | nil => simp
  | cons a l ih =>
    cases hpa : p a with
    | true => rw [List.dropWhile_cons_of_pos hpa]; exact le_trans ih (Nat.le_succ _)
    | false => rw [List.dropWhile_cons_of_neg (by simp [hpa])]

theorem phScanFuel_succ (fuel : Nat) (c : Char) (cs : List Char) :
    phScanFuel (fuel + 1) (c :: cs) =
      if c = '$' then
        digitsVal 0 (cs.takeWhile Char.isDigit) :: phScanFuel fuel (cs.dropWhile Char.isDigit)
      else phScanFuel fuel cs := rfl

theorem phScanFuel_eq : ∀ fuel (l : List Char), l.length ≤ fuel → phScanFuel fuel l = phScan l := by
  intro fuel
  induction fuel using Nat.strong_induction_on with
  | _ fuel ih =>
    intro l h
    cases l with
    | nil => cases fuel <;> rfl
    | cons c cs =>
      obtain ⟨fuel, rfl⟩ : ∃ f, fuel = f + 1 := ⟨fuel - 1, by simp at h; omega⟩
      have hcs : cs.length ≤ fuel := by simp at h; omega
      rw [show phScan (c :: cs) = phScanFuel (cs.length + 1) (c :: cs) from by simp [phScan]]
      rw [phScanFuel_succ, phScanFuel_succ]
      by_cases hc : c = '$'
      · rw [if_pos hc, if_pos hc,
          ih fuel (by omega) _ (le_trans (length_dropWhile_le _ _) hcs),
          ih cs.length (by omega) _ (length_dropWhile_le _ _)]
      · rw [if_neg hc, if_neg hc, ih fuel (by omega) _ hcs, ih cs.length (by omega) _ le_rfl]

theorem phScan_cons (c : Char) (cs : List Char) :
    phScan (c :: cs) =
      if c = '$' then
        digitsVal 0 (cs.takeWhile Char.isDigit) :: phScan (cs.dropWhile Char.isDigit)
      else phScan cs := by
  rw [show phScan (c :: cs) = phScanFuel (cs.length + 1) (c :: cs) from by simp [phScan],
    phScanFuel_succ]
  by_cases hc : c = '$'
  · rw [if_pos hc, if_pos hc, phScanFuel_eq cs.length _ (length_dropWhile_le _ _)]
  · rw [if_neg hc, if_neg hc, phScanFuel_eq cs.length _ le_rfl]

theorem phScan_append_of_noDollar {l : List Char} (r : List Char) (h : noDollarL l) :
    phScan (l ++ r) = phScan r := by
  induction l with
  | nil => rfl
  | cons c cs ih =>
    have hc : c ≠ '$' := h c (List.mem_cons_self c cs)
    rw [List.cons_append, phScan_cons, if_neg hc]
    exact ih (fun x hx => h x (List.mem_cons_of_mem c hx))

theorem phScan_eq_nil_of_noDollar {l : List Char} (h : noDollarL l) : phScan l = [] := by
  have := phScan_append_of_noDollar (l := l) [] h
  simpa using this

/-! ### Correctness of the decimal rendering -/

theorem natReprCharsFuel_succ (fuel n : Nat) :
    natReprCharsFuel (fuel + 1) n =
      if n < 10 then [digitChar n] else natReprCharsFuel fuel (n / 10) ++ [digitChar (n % 10)] := rfl

theorem natReprCharsFuel_eq : ∀ n fuel, n < fuel → natReprCharsFuel fuel n = natReprChars n := by
  intro n
  induction n using Nat.strong_induction_on with
  | _ n ih =>
    intro fuel hf
    obtain ⟨fuel, rfl⟩ : ∃ f, fuel = f + 1 := ⟨fuel - 1, by omega⟩
    rw [natReprCharsFuel_succ,
      show natReprChars n = natReprCharsFuel (n + 1) n from rfl, natReprCharsFuel_succ]
    by_cases h10 : n < 10
    · rw [if_pos h10, if_pos h10]
    · have hdiv : n / 10 < n := Nat.div_lt_self (by omega) (by omega)
      rw [if_neg h10, if_neg h10,
        ih (n / 10) hdiv fuel (by omega), ih (n / 10) hdiv n (by omega)]

theorem natReprChars_eq (n : Nat) :
    natReprChars n =
      if n < 10 then [digitChar n] else natReprChars (n / 10) ++ [digitChar (n % 10)] := by
  rw [show natReprChars n = natReprCharsFuel (n + 1) n from rfl, natReprCharsFuel_succ]
  by_cases h10 : n < 10
  · rw [if_pos h10, if_pos h10]
  · rw [if_neg h10, if_neg h10,
      natReprCharsFuel_eq (n / 10) n (by
        have := Nat.div_lt_self (show 0 < n by omega) (show 1 < 10 by omega)
        omega)]

theorem digitChar_isDigit {d : Nat} (h : d < 10) : (digitChar d).isDigit = true := by
  interval_cases d <;> decide

theorem digitChar_toNat {d : Nat} (h : d < 10) : (digitChar d).toNat = 48 + d := by
  interval_cases d <;> decide

theorem natReprChars_isDigit (n : Nat) : ∀ c ∈ natReprChars n, c.isDigit = true := by
  induction n using Nat.strong_induction_on with
  | _ n ih =>
    intro c hc
    rw [natReprChars_eq] at hc
    by_cases h10 : n < 10
    · rw [if_pos h10] at hc
      simp only [List.mem_singleton] at hc
      subst hc
      exact digitChar_isDigit h10
    · rw [if_neg h10] at hc
      rcases List.mem_append.mp hc with h | h
      · exact ih (n / 10) (Nat.div_lt_self (by omega) (by omega)) c h
      · simp only [List.mem_singleton] at h
        subst h
        exact digitChar_isDigit (Nat.mod_lt _ (by omega))

theorem natReprChars_noDollar (n : Nat) : noDollarL (natReprChars n) := by
  intro c hc heq
  have hd := natReprChars_isDigit n c hc
  subst heq
  simp at hd

theorem digitsVal_nil (a : Nat) : digitsVal a [] = a := rfl

theorem digitsVal_cons (a : Nat) (c : Char) (cs : List Char) :
    digitsVal a (c :: cs) = digitsVal (a * 10 + (c.toNat - 48)) cs := rfl

theorem digitsVal_append (a : Nat) (l m : List Char) :
    digitsVal a (l ++ m) = digitsVal (digitsVal a l) m := by
  induction l generalizing a with
  | nil => rfl
  | cons c cs ih => rw [List.cons_append, digitsVal_cons, ih, digitsVal_cons]

theorem digitsVal_natReprChars (n : Nat) : digitsVal 0 (natReprChars n) = n := by
  induction n using Nat.strong_induction_on with
  | _ n ih =>
    rw [natReprChars_eq]
    by_cases h10 : n < 10
    · rw [if_pos h10, digitsVal_cons, digitsVal_nil, digitChar_toNat h10]
      omega
    · rw [if_neg h10, digitsVal_append, ih (n / 10) (Nat.div_lt_self (by omega) (by omega)),
        digitsVal_cons, digitsVal_nil, digitChar_toNat (Nat.mod_lt _ (by omega))]
      omega

theorem takeWhile_append_all {p : Char → Bool} {l r : List Char}
    (hl : ∀ c ∈ l, p c = true) (hr : ∀ c, r.head? = some c → p c = false) :
    (l ++ r).takeWhile p = l ∧ (l ++ r).dropWhile p = r := by
  induction l with
  | nil =>
    simp only [List.nil_append]
    cases r with
    | nil => simp
    | cons c cs =>
      have hpc := hr c rfl
      constructor
      · rw [List.takeWhile_cons_of_neg (by simp [hpc])]
      · rw [List.dropWhile_cons_of_neg (by simp [hpc])]
  | cons a l ih =>
    have ha := hl a (List.mem_cons_self a l)
    obtain ⟨iht, ihd⟩ := ih (fun c hc => hl c (List.mem_cons_of_mem a hc))
    constructor
    · rw [List.cons_append, List.takeWhile_cons_of_pos ha, iht]
    · rw [List.cons_append, List.dropWhile_cons_of_pos ha, ihd]

theorem phScan_dollar (n : Nat) (r : List Char) (hr : headNotDigit r) :
    phScan ('$' :: (natReprChars n ++ r)) = n :: phScan r := by
  rw [phScan_cons, if_pos rfl]
  obtain ⟨ht, hd⟩ := takeWhile_append_all (natReprChars_isDigit n) hr
  rw [ht, hd, digitsVal_natReprChars]

theorem noDollarL_append {a b : List Char} (ha : noDollarL a) (hb : noDollarL b) :
    noDollarL (a ++ b) := by
  intro c hc
  rcases List.mem_append.mp hc with h | h
  · exact ha c h
  · exact hb c h

theorem phScan_pre_dollar (pre : List Char) (n : Nat) (tail : List Char)
    (hpre : noDollarL pre) (ht : headNotDigit tail) :
    phScan (pre ++ '$' :: (natReprChars n ++ tail)) = n :: phScan tail := by
  rw [phScan_append_of_noDollar _ hpre, phScan_dollar n tail ht]

/-! ### The lexicographic key order of the `BTreeMap` model -/

theorem charListLt_cons_iff {a b : Char} {as bs : List Char} :
    charListLt (a :: as) (b :: bs) = true ↔ a < b ∨ (a = b ∧ charListLt as bs = true) := by
  rw [show charListLt (a :: as) (b :: bs) =
        (if a < b then true else if a = b then charListLt as bs else false) from rfl]
  by_cases hab : a < b
  · simp [hab]
  · by_cases heq : a = b
    · simp [hab, heq]
    · simp [hab, heq]

theorem charListLt_trans :
    ∀ {a b c : List Char}, charListLt a b = true → charListLt b c = true → charListLt a c = true := by
  intro a
  induction a with
  | nil =>
    intro b c h1 h2
    cases b with
    | nil => exact absurd h1 (by simp [charListLt])
    | cons bh bt =>
      cases c with
      | nil => exact absurd h2 (by simp [charListLt])
      | cons ch ct => simp [charListLt]
  | cons ah as ih =>
    intro b c h1 h2
    cases b with
    | nil => exact absurd h1 (by simp [charListLt])
    | cons bh bt =>
      cases c with
      | nil => exact absurd h2 (by simp [charListLt])
      | cons ch ct =>
        rw [charListLt_cons_iff] at h1 h2 ⊢
        rcases h1 with h1 | ⟨rfl, h1⟩
        · rcases h2 with h2 | ⟨rfl, h2⟩
          · exact .inl (lt_trans h1 h2)
          · exact .inl h1
        · rcases h2 with h2 | ⟨rfl, h2⟩
          · exact .inl h2
          · exact .inr ⟨rfl, ih h1 h2⟩

theorem charListLt_total :
    ∀ {a b : List Char}, charListLt a b = false → a = b ∨ charListLt b a = true := by
  intro a
  induction a with
  | nil =>
    intro b h
    cases b with
    | nil => exact .inl rfl
    | cons bh bt => exact absurd h (by simp [charListLt])
  | cons ah as ih =>
    intro b h
    cases b with
    | nil => exact .inr (by simp [charListLt])
    | cons bh bt =>
      by_cases hab : ah < bh
      · rw [show charListLt (ah :: as) (bh :: bt) =
              (if ah < bh then true else if ah = bh then charListLt as bt else false) from rfl,
            if_pos hab] at h
        exact absurd h (by simp)
      · by_cases heq : ah = bh
        · rw [show charListLt (ah :: as) (bh :: bt) =
                (if ah < bh then true else if ah = bh then charListLt as bt else false) from rfl,
              if_neg hab, if_pos heq] at h
          rcases ih h with h2 | h2
          · exact .inl (by rw [heq, h2])
          · subst heq
            exact .inr (charListLt_cons_iff.mpr (.inr ⟨rfl, h2⟩))
        · have hba : bh < ah := by
            rcases lt_trichotomy ah bh with h3 | h3 | h3
            · exact absurd h3 hab
            · exact absurd h3 heq
            · exact h3
          exact .inr (charListLt_cons_iff.mpr (.inl hba))

theorem strLtB_trans {a b c : String} (h1 : strLtB a b = true) (h2 : strLtB b c = true) :
    strLtB a c = true :=
  charListLt_trans h1 h2

theorem strLtB_total {a b : String} (h : strLtB a b = false) : a = b ∨ strLtB b a = true := by
  rcases charListLt_total h with h2 | h2
  · exact .inl (String.ext h2)
  · exact .inr h2

/-- The keys of an association list are strictly sorted in the
lexicographic order (the `BTreeMap` iteration order). -/
def keysSorted {V : Type} (l : List (String × V)) : Prop :=
  (l.map Prod.fst).Pairwise (fun a b => strLtB a b = true)

theorem mem_keys_insertSorted {V : Type} {k x : String} {v : V} :
    ∀ {l : List (String × V)}, x ∈ (insertSorted k v l).map Prod.fst →
      x = k ∨ x ∈ l.map Prod.fst := by
  intro l
  induction l with
  | nil =>
    intro hx
    simp [insertSorted] at hx
    exact .inl hx
  | cons p rest ih =>
    obtain ⟨k', v'⟩ := p
    intro hx
    by_cases h1 : strLtB k k' = true
    · rw [show insertSorted k v ((k', v') :: rest) = (k, v) :: (k', v') :: rest from by
          simp [insertSorted, h1]] at hx
      simp only [List.map_cons, List.mem_cons] at hx
      rcases hx with h | h | h
      · exact .inl h
      · exact .inr (by simp [h])
      · exact .inr (by simp [h])
    · by_cases h2 : k = k'
      · rw [show insertSorted k v ((k', v') :: rest) = (k, v) :: rest from by
            simp only [insertSorted]
            rw [if_neg h1, if_pos h2]] at hx
        simp only [List.map_cons, List.mem_cons] at hx
        rcases hx with h | h
        · exact .inl h
        · exact .inr (by simp [h])
      · rw [show insertSorted k v ((k', v') :: rest) = (k', v') :: insertSorted k v rest from by
            simp [insertSorted, h1, h2]] at hx
        simp only [List.map_cons, List.mem_cons] at hx
        rcases hx with h | h
        · exact .inr (by simp [h])
        · rcases ih h with h3 | h3
          · exact .inl h3
          · exact .inr (by simp [h3])

theorem keysSorted_insertSorted {V : Type} (k : String) (v : V) :
    ∀ {l : List (String × V)}, keysSorted l → keysSorted (insertSorted k v l) := by
  intro l
  induction l with
  | nil =>
    intro _
    simp [insertSorted, keysSorted]
  | cons p rest ih =>
    obtain ⟨k', v'⟩ := p
    intro hl
    rw [keysSorted, List.map_cons, List.pairwise_cons] at hl
    obtain ⟨hk', hrest⟩ := hl
    by_cases h1 : strLtB k k' = true
    · rw [show insertSorted k v ((k', v') :: rest) = (k, v) :: (k', v') :: rest from by
          simp [insertSorted, h1]]
      rw [keysSorted, List.map_cons, List.map_cons, List.pairwise_cons]
      refine ⟨?_, List.pairwise_cons.mpr ⟨hk', hrest⟩⟩
      intro x hx
      rcases List.mem_cons.mp hx with rfl | hx
      · exact h1
      · exact strLtB_trans h1 (hk' x hx)
    · by_cases h2 : k = k'
      · rw [show insertSorted k v ((k', v') :: rest) = (k, v) :: rest from by
            simp only [insertSorted]
            rw [if_neg h1, if_pos h2]]
        rw [keysSorted, List.map_cons, List.pairwise_cons]
        exact ⟨fun x hx => h2 ▸ hk' x hx, hrest⟩
      · rw [show insertSorted k v ((k', v') :: rest) = (k', v') :: insertSorted k v rest from by
            simp [insertSorted, h1, h2]]
        rw [keysSorted, List.map_cons, List.pairwise_cons]
        refine ⟨?_, ih hrest⟩
        intro x hx
        rcases mem_keys_insertSorted hx with rfl | hx
        · rcases strLtB_total (by simpa using h1) with h3 | h3
          · exact absurd h3 h2
          · exact h3
        · exact hk' x hx

/-! ### Scanning the rendered WHERE and SET clauses -/

theorem natRepr_toList (n : Nat) : (natRepr n).toList = natReprChars n := rfl

theorem toList_append (a b : String) : (a ++ b).toList = a.toList ++ b.toList :=
  String.data_append a b

theorem headNotDigit_cons {a : Char} (h : a.isDigit = false) (t : List Char) :
    headNotDigit (a :: t) := by
  intro c hc
  rw [List.head?_cons] at hc
  cases hc
  exact h

theorem phScan_sym_dollar (sym : String) (hsym : noDollarL sym.toList) (i : Nat) (z : List Char)
    (hz : headNotDigit z) :
    phScan ((sym ++ " $" ++ natRepr i).toList ++ z) = i :: phScan z := by
  have h1 : (sym ++ " $" ++ natRepr i).toList ++ z
      = (sym.toList ++ [' ']) ++ '$' :: (natReprChars i ++ z) := by
    rw [toList_append, toList_append, natRepr_toList,
      show (" $" : String).toList = [' ', '$'] from rfl]
    simp
  rw [h1]
  exact phScan_pre_dollar _ i z (noDollarL_append hsym (by decide)) hz

theorem phScan_arg (m : ComparisonMode) (i : Nat) (z : List Char) (hz : headNotDigit z) :
    phScan ((m.arg i).toList ++ z) = i :: phScan z := by
  cases m with
  | IN =>
    have h1 : (ComparisonMode.IN.arg i).toList ++ z
        = "= any(".toList ++ '$' :: (natReprChars i ++ (')' :: z)) := by
      rw [show ComparisonMode.IN.arg i = "= any($" ++ natRepr i ++ ")" from rfl,
        toList_append, toList_append, natRepr_toList,
        show ("= any($" : String).toList = "= any(".toList ++ ['$'] from rfl,
        show (")" : String).toList = [')'] from rfl]
      simp
    rw [h1, phScan_pre_dollar _ i _ (by decide) (headNotDigit_cons (by decide) z),
      phScan_cons, if_neg (by decide)]
  | LT => exact phScan_sym_dollar "<" (by decide) i z hz
  | LTE => exact phScan_sym_dollar "<=" (by decide) i z hz
  | EQ => exact phScan_sym_dollar "=" (by decide) i z hz
  | GTE => exact phScan_sym_dollar ">=" (by decide) i z hz
  | GT => exact phScan_sym_dollar ">" (by decide) i z hz

theorem buildWhereGo_cons (col : String) (m : ComparisonMode) (v : Val)
    (rest : List (String × ComparisonMode × Val)) (i : Nat) (st : Bool) :
    buildWhereGo ((col, m, v) :: rest) i st =
      (((if st then " AND " else "") ++ col ++ " " ++ m.arg i) ++ (buildWhereGo rest (i + 1) true).1,
        v :: (buildWhereGo rest (i + 1) true).2) := rfl

theorem buildWhereGo_snd :
    ∀ (flat : List (String × ComparisonMode × Val)) (i : Nat) (st : Bool),
      (buildWhereGo flat i st).2 = flat.map (fun e => e.2.2) := by
  intro flat
  induction flat with
  | nil => intro i st; rfl
  | cons e rest ih =>
    intro i st
    obtain ⟨col, m, v⟩ := e
    rw [buildWhereGo_cons, List.map_cons]
    simp [ih]

theorem buildWhereGo_true_head (e : String × ComparisonMode × Val)
    (rest : List (String × ComparisonMode × Val)) (i : Nat) :
    ∃ t, (buildWhereGo (e :: rest) i true).1.toList = ' ' :: t := by
  obtain ⟨col, m, v⟩ := e
  rw [buildWhereGo_cons]
  refine ⟨"AND ".toList ++ (col.toList ++ (" ".toList ++ ((m.arg i).toList
      ++ (buildWhereGo rest (i + 1) true).1.toList))), ?_⟩
  simp only [toList_append, List.append_assoc,
    show (" AND " : String).toList = ' ' :: "AND ".toList from rfl]
  simp

theorem buildWhereGo_ne_empty (col : String) (m : ComparisonMode) (v : Val)
    (rest : List (String × ComparisonMode × Val)) (i : Nat) (st : Bool) :
    (buildWhereGo ((col, m, v) :: rest) i st).1 ≠ "" := by
  intro h
  have h2 := congrArg String.toList h
  rw [buildWhereGo_cons] at h2
  simp only [toList_append, show ("" : String).toList = [] from rfl,
    show (" " : String).toList = [' '] from rfl, List.append_eq_nil] at h2
  exact absurd h2.1.1.2 (by simp)

theorem phScan_whereGo :
    ∀ (flat : List (String × ComparisonMode × Val)) (i : Nat) (st : Bool),
      (∀ e ∈ flat, noDollarL e.1.toList) → ∀ (r : List Char), headNotDigit r →
      phScan ((buildWhereGo flat i st).1.toList ++ r)
        = List.range' i flat.length ++ phScan r := by
  intro flat
  induction flat with
  | nil =>
    intro i st _ r hr
    simp [buildWhereGo]
  | cons e rest ih =>
    intro i st hcols r hr
    obtain ⟨col, m, v⟩ := e
    have hcol : noDollarL col.toList := hcols _ (List.mem_cons_self _ _)
    have hz : headNotDigit ((buildWhereGo rest (i + 1) true).1.toList ++ r) := by
      cases rest with
      | nil => simpa [buildWhereGo] using hr
      | cons e2 r2 =>
        obtain ⟨t, ht⟩ := buildWhereGo_true_head e2 r2 (i + 1)
        rw [ht]
        exact headNotDigit_cons (by decide) _
    have hpre : noDollarL ((if st then " AND " else "").toList ++ (col.toList ++ " ".toList)) := by
      refine noDollarL_append ?_ (noDollarL_append hcol (by decide))
      cases st <;> decide
    have hstruct : ((((if st then " AND " else "") ++ col ++ " " ++ m.arg i)
          ++ (buildWhereGo rest (i + 1) true).1).toList) ++ r
        = ((if st then " AND " else "").toList ++ (col.toList ++ " ".toList))
          ++ ((m.arg i).toList ++ ((buildWhereGo rest (i + 1) true).1.toList ++ r)) := by
      simp [toList_append, List.append_assoc]
    rw [buildWhereGo_cons]
    show phScan _ = _
    rw [hstruct, phScan_append_of_noDollar _ hpre, phScan_arg m i _ hz,
      ih (i + 1) true (fun e2 he => hcols e2 (List.mem_cons_of_mem _ he)) r hr,
      List.length_cons, List.range'_succ]
    rfl

theorem buildSetGo_cons (col : String) (v : Val) (rest : List (String × Val)) (i : Nat)
    (first : Bool) :
    buildSetGo ((col, v) :: rest) i first =
      (((if first then "SET " else ", ") ++ col ++ " = $" ++ natRepr i)
          ++ (buildSetGo rest (i + 1) false).1,
        v :: (buildSetGo rest (i + 1) false).2) := rfl

theorem buildSetGo_snd :
    ∀ (vals : List (String × Val)) (i : Nat) (first : Bool),
      (buildSetGo vals i first).2 = vals.map Prod.snd := by
  intro vals
  induction vals with
  | nil => intro i first; rfl
  | cons e rest ih =>
    intro i first
    obtain ⟨col, v⟩ := e
    rw [buildSetGo_cons, List.map_cons]
    simp [ih]

theorem buildSetGo_false_head (e : String × Val) (rest : List (String × Val)) (i : Nat) :
    ∃ t, (buildSetGo (e :: rest) i false).1.toList = ',' :: t := by
  obtain ⟨col, v⟩ := e
  rw [buildSetGo_cons]
  refine ⟨" ".toList ++ (col.toList ++ (" = $".toList ++ ((natRepr i).toList
      ++ (buildSetGo rest (i + 1) false).1.toList))), ?_⟩
  simp only [toList_append, List.append_assoc,
    show (", " : String).toList = ',' :: " ".toList from rfl]
  simp

theorem phScan_setGo :
    ∀ (vals : List (String × Val)) (i : Nat) (first : Bool),
      (∀ p ∈ vals, noDollarL p.1.toList) → ∀ (r : List Char), headNotDigit r →
      phScan ((buildSetGo vals i first).1.toList ++ r)
        = List.range' i vals.length ++ phScan r := by
  intro vals
  induction vals with
  | nil =>
    intro i first _ r hr
    simp [buildSetGo]
  | cons e rest ih =>
    intro i first hcols r hr
    obtain ⟨col, v⟩ := e
    have hcol : noDollarL col.toList := hcols _ (List.mem_cons_self _ _)
    have hz : headNotDigit ((buildSetGo rest (i + 1) false).1.toList ++ r) := by
      cases rest with
      | nil => simpa [buildSetGo] using hr
      | cons e2 r2 =>
        obtain ⟨t, ht⟩ := buildSetGo_false_head e2 r2 (i + 1)
        rw [ht]
        exact headNotDigit_cons (by decide) _
    have hpre : noDollarL ((if first then "SET " else ", ").toList
        ++ (col.toList ++ [' ', '=', ' '])) := by
      refine noDollarL_append ?_ (noDollarL_append hcol (by decide))
      cases first <;> decide
    have hstruct : ((((if first then "SET " else ", ") ++ col ++ " = $" ++ natRepr i)
          ++ (buildSetGo rest (i + 1) false).1).toList) ++ r
        = ((if first then "SET " else ", ").toList ++ (col.toList ++ [' ', '=', ' ']))
          ++ '$' :: (natReprChars i ++ ((buildSetGo rest (i + 1) false).1.toList ++ r)) := by
      rw [toList_append, toList_append, toList_append, toList_append, natRepr_toList,
        show (" = $" : String).toList = [' ', '=', ' ', '$'] from rfl]
      simp
    rw [buildSetGo_cons]
    show phScan _ = _
    rw [hstruct, phScan_pre_dollar _ i _ hpre hz,
      ih (i + 1) false (fun e2 he => hcols e2 (List.mem_cons_of_mem _ he)) r hr,
      List.length_cons, List.range'_succ]
    rfl

/-! ### Contiguity of the placeholders of whole built statements -/

theorem noDollar_append {a b : String} (ha : noDollar a) (hb : noDollar b) : noDollar (a ++ b) := by
  rw [noDollar, toList_append]
  exact noDollarL_append ha hb

theorem natRepr_noDollar (n : Nat) : noDollar (natRepr n) := natReprChars_noDollar n

theorem intRepr_noDollar (i : Int) : noDollar (intRepr i) := by
  rw [intRepr]
  by_cases h : i < 0
  · rw [if_pos h]
    exact noDollar_append (by decide) (natRepr_noDollar _)
  · rw [if_neg h]
    exact natRepr_noDollar _

/-- The builder is well formed: no `$` occurs in its identifiers.  (Any real
SQL table, column name or extra clause satisfies this.) -/
def FilteredOperationBuilder.wf (b : FilteredOperationBuilder) : Prop :=
  noDollar b.table ∧ noDollar b.extra ∧ ∀ p ∈ b.filters, noDollar p.1

def UpdateBuilder.wf (u : UpdateBuilder) : Prop :=
  noDollar u.filters.table ∧ noDollar u.extra ∧
    (∀ p ∈ u.filters.filters, noDollar p.1) ∧ ∀ p ∈ u.values, noDollar p.1

instance FilteredOperationBuilder.wf.dec (b : FilteredOperationBuilder) : Decidable b.wf :=
  inferInstanceAs (Decidable (noDollar b.table ∧ noDollar b.extra ∧ ∀ p ∈ b.filters, noDollar p.1))

instance UpdateBuilder.wf.dec (u : UpdateBuilder) : Decidable u.wf :=
  inferInstanceAs (Decidable (noDollar u.filters.table ∧ noDollar u.extra ∧
    (∀ p ∈ u.filters.filters, noDollar p.1) ∧ ∀ p ∈ u.values, noDollar p.1))

theorem flatFilters_noDollar {fs : Filters} (h : ∀ p ∈ fs, noDollar p.1) :
    ∀ e ∈ flatFilters fs, noDollarL e.1.toList := by
  intro e he
  simp only [flatFilters, List.mem_flatMap] at he
  obtain ⟨p, hp, hmem⟩ := he
  simp only [List.mem_map] at hmem
  obtain ⟨mv, _, heq⟩ := hmem
  subst heq
  exact h p hp

theorem extraPart_noDollar {ext : String} (hext : noDollar ext) :
    noDollar (if ext ≠ "" then " " ++ ext else "") := by
  by_cases he : ext = ""
  · rw [if_neg (by simp [he])]
    decide
  · rw [if_pos he]
    exact noDollar_append (by decide) hext

/-- Scanning an assembled `SELECT`/`DELETE`-shaped statement: the `$n`
indices are exactly `1, …, |flat|`. -/
theorem phScan_assembled (hd tbl ext tl : String) (flat : List (String × ComparisonMode × Val))
    (hhd : noDollar hd) (htbl : noDollar tbl) (hext : noDollar ext) (htl : noDollar tl)
    (htlsp : tl = "" ∨ ∃ t, tl.toList = ' ' :: t)
    (hcols : ∀ e ∈ flat, noDollarL e.1.toList) :
    phScan ((hd ++ " FROM " ++ tbl ++
        (if (buildWhereGo flat 1 false).1 ≠ "" then " WHERE " ++ (buildWhereGo flat 1 false).1
          else "") ++
        (if ext ≠ "" then " " ++ ext else "") ++ tl ++ ";").toList)
      = List.range' 1 flat.length := by
  have hep : noDollar (if ext ≠ "" then " " ++ ext else "") := extraPart_noDollar hext
  have hSnd : noDollarL ((if ext ≠ "" then " " ++ ext else "").toList
      ++ (tl.toList ++ (";" : String).toList)) :=
    noDollarL_append hep (noDollarL_append htl (by decide))
  have hS : headNotDigit ((if ext ≠ "" then " " ++ ext else "").toList
      ++ (tl.toList ++ (";" : String).toList)) := by
    by_cases he : ext = ""
    · rw [if_neg (by simp [he]), show ("" : String).toList = [] from rfl, List.nil_append]
      rcases htlsp with h | ⟨t, ht⟩
      · rw [h, show ("" : String).toList = [] from rfl, List.nil_append]
        exact headNotDigit_cons (by decide) _
      · rw [ht, List.cons_append]
        exact headNotDigit_cons (by decide) _
    · rw [if_pos he, toList_append, show (" " : String).toList = [' '] from rfl,
        List.cons_append]
      exact headNotDigit_cons (by decide) _
  cases flat with
  | nil =>
    rw [show (buildWhereGo ([] : List (String × ComparisonMode × Val)) 1 false).1 = "" from rfl,
      if_neg (by simp)]
    rw [phScan_eq_nil_of_noDollar]
    · rfl
    · exact noDollar_append (noDollar_append (noDollar_append (noDollar_append
        (noDollar_append (noDollar_append hhd (by decide)) htbl) (by decide)) hep) htl) (by decide)
  | cons e rest =>
    obtain ⟨col, m, v⟩ := e
    rw [if_pos (buildWhereGo_ne_empty col m v rest 1 false)]
    have hstruct : ((hd ++ " FROM " ++ tbl ++ (" WHERE " ++ (buildWhereGo ((col, m, v) :: rest) 1 false).1) ++
          (if ext ≠ "" then " " ++ ext else "") ++ tl ++ ";").toList)
        = ((hd ++ " FROM " ++ tbl ++ " WHERE ").toList)
          ++ ((buildWhereGo ((col, m, v) :: rest) 1 false).1.toList
            ++ ((if ext ≠ "" then " " ++ ext else "").toList
              ++ (tl.toList ++ (";" : String).toList))) := by
      simp [toList_append, List.append_assoc]
    rw [hstruct,
      phScan_append_of_noDollar _
        (show noDollar (hd ++ " FROM " ++ tbl ++ " WHERE ") from
          noDollar_append (noDollar_append (noDollar_append hhd (by decide)) htbl) (by decide)),
      phScan_whereGo ((col, m, v) :: rest) 1 false hcols _ hS,
      phScan_eq_nil_of_noDollar hSnd, List.append_nil]

/-- The `(SQL, args)` pair of `FilteredOperationBuilder::build` has exactly
the placeholders `$1 … $n` in order, where `n` is the number of bound
arguments, and the arguments are the flattened filter values in map order. -/
theorem build_placeholders (b : FilteredOperationBuilder) (op : FilteredOperation) (hb : b.wf) :
    placeholders (b.build op).1 = List.range' 1 (b.build op).2.length ∧
      (b.build op).2 = (flatFilters b.filters).map (fun e => e.2.2) := by
  obtain ⟨htab, hext, hfil⟩ := hb
  have hcols := flatFilters_noDollar hfil
  have hsnd : (b.build op).2 = (flatFilters b.filters).map (fun e => e.2.2) := by
    show (buildWhereGo (flatFilters b.filters) 1 false).2 = _
    rw [buildWhereGo_snd]
  refine ⟨?_, hsnd⟩
  rw [hsnd, List.length_map]
  cases op with
  | Delete =>
    exact phScan_assembled "DELETE" b.table b.extra " RETURNING *" _ (by decide) htab hext
      (by decide) (.inr ⟨_, rfl⟩) hcols
  | Select sop lim =>
    cases sop with
    | none =>
      cases lim with
      | none =>
        exact phScan_assembled "SELECT *" b.table b.extra "" _ (by decide) htab hext
          (by decide) (.inl rfl) hcols
      | some v =>
        exact phScan_assembled "SELECT *" b.table b.extra (" LIMIT " ++ intRepr v) _ (by decide)
          htab hext (noDollar_append (by decide) (intRepr_noDollar v)) (.inr ⟨_, rfl⟩) hcols
    | some so =>
      cases so with
      | Count =>
        cases lim with
        | none =>
          exact phScan_assembled ("SELECT " ++ SelectOperation.Count.to_sql ++ "(*)") b.table
            b.extra "" _ (by decide) htab hext (by decide) (.inl rfl) hcols
        | some v =>
          exact phScan_assembled ("SELECT " ++ SelectOperation.Count.to_sql ++ "(*)") b.table
            b.extra (" LIMIT " ++ intRepr v) _ (by decide) htab hext
            (noDollar_append (by decide) (intRepr_noDollar v)) (.inr ⟨_, rfl⟩) hcols

/-- Scanning an assembled `UPDATE`-shaped statement: the SET clause takes
`$1 … $k` and the WHERE clause continues at `$(k+1)`. -/
theorem phScan_update_assembled (tbl ext : String) (vals : List (String × Val))
    (flat : List (String × ComparisonMode × Val))
    (htbl : noDollar tbl) (hext : noDollar ext)
    (hvcols : ∀ p ∈ vals, noDollarL p.1.toList)
    (hcols : ∀ e ∈ flat, noDollarL e.1.toList) :
    phScan (("UPDATE " ++ tbl ++ " " ++ (buildSetGo vals 1 true).1 ++
        (if (buildWhereGo flat (vals.length + 1) false).1 ≠ "" then
          " WHERE " ++ (buildWhereGo flat (vals.length + 1) false).1 else "") ++
        (if ext ≠ "" then " " ++ ext else "") ++ " RETURNING *;").toList)
      = List.range' 1 (vals.length + flat.length) := by
  have hep : noDollar (if ext ≠ "" then " " ++ ext else "") := extraPart_noDollar hext
  have hSnd : noDollarL ((if ext ≠ "" then " " ++ ext else "").toList
      ++ (" RETURNING *;" : String).toList) :=
    noDollarL_append hep (by decide)
  have hS : headNotDigit ((if ext ≠ "" then " " ++ ext else "").toList
      ++ (" RETURNING *;" : String).toList) := by
    by_cases he : ext = ""
    · rw [if_neg (by simp [he]), show ("" : String).toList = [] from rfl, List.nil_append]
      exact headNotDigit_cons (by decide) _
    · rw [if_pos he, toList_append, show (" " : String).toList = [' '] from rfl,
        List.cons_append]
      exact headNotDigit_cons (by decide) _
  have hP : noDollar ("UPDATE " ++ tbl ++ " ") :=
    noDollar_append (noDollar_append (by decide) htbl) (by decide)
  cases flat with
  | nil =>
    rw [show (buildWhereGo ([] : List (String × ComparisonMode × Val)) (vals.length + 1)
          false).1 = "" from rfl,
      if_neg (by simp)]
    have hstruct : (("UPDATE " ++ tbl ++ " " ++ (buildSetGo vals 1 true).1 ++ "" ++
          (if ext ≠ "" then " " ++ ext else "") ++ " RETURNING *;").toList)
        = (("UPDATE " ++ tbl ++ " ").toList)
          ++ ((buildSetGo vals 1 true).1.toList
            ++ ((if ext ≠ "" then " " ++ ext else "").toList
              ++ (" RETURNING *;" : String).toList)) := by
      simp [toList_append, List.append_assoc]
    rw [hstruct, phScan_append_of_noDollar _ hP,
      phScan_setGo vals 1 true hvcols _ hS,
      phScan_eq_nil_of_noDollar hSnd, List.append_nil]
    simp
  | cons e rest =>
    obtain ⟨col, m, v⟩ := e
    rw [if_pos (buildWhereGo_ne_empty col m v rest (vals.length + 1) false)]
    have hS2 : headNotDigit ((" WHERE " : String).toList
        ++ ((buildWhereGo ((col, m, v) :: rest) (vals.length + 1) false).1.toList
          ++ ((if ext ≠ "" then " " ++ ext else "").toList
            ++ (" RETURNING *;" : String).toList))) := by
      rw [show (" WHERE " : String).toList = ' ' :: "WHERE ".toList from rfl, List.cons_append]
      exact headNotDigit_cons (by decide) _
    have hstruct : (("UPDATE " ++ tbl ++ " " ++ (buildSetGo vals 1 true).1 ++
          (" WHERE " ++ (buildWhereGo ((col, m, v) :: rest) (vals.length + 1) false).1) ++
          (if ext ≠ "" then " " ++ ext else "") ++ " RETURNING *;").toList)
        = (("UPDATE " ++ tbl ++ " ").toList)
          ++ ((buildSetGo vals 1 true).1.toList
            ++ ((" WHERE " : String).toList
              ++ ((buildWhereGo ((col, m, v) :: rest) (vals.length + 1) false).1.toList
                ++ ((if ext ≠ "" then " " ++ ext else "").toList
                  ++ (" RETURNING *;" : String).toList)))) := by
      simp [toList_append, List.append_assoc]
    rw [hstruct, phScan_append_of_noDollar _ hP,
      phScan_setGo vals 1 true hvcols _ hS2,
      phScan_append_of_noDollar _ (show noDollarL (" WHERE " : String).toList from by decide),
      phScan_whereGo ((col, m, v) :: rest) (vals.length + 1) false hcols _ hS,
      phScan_eq_nil_of_noDollar hSnd, List.append_nil]
    have hr := List.range'_append 1 vals.length ((col, m, v) :: rest).length 1
    simp only [one_mul] at hr
    rw [show 1 + vals.length = vals.length + 1 from Nat.add_comm _ _] at hr
    rw [Nat.add_comm vals.length ((col, m, v) :: rest).length]
    exact hr

/-- The `(SQL, args)` pair of `UpdateBuilder::build` with at least one SET
value: placeholders are `$1 … $(k+m)` in order, SET parameters take
`$1 … $k`, WHERE parameters continue at `$(k+1)`, and the argument vector
lists the SET values before the filter values. -/
theorem update_build_characterization (u : UpdateBuilder) (hu : u.wf) (hne : ¬u.values = []) :
    placeholders u.build.1 = List.range' 1 u.build.2.length ∧
      u.build.2 = u.values.map Prod.snd
        ++ (build_where_from_filters u.filters.filters (u.values.length + 1)).2 := by
  obtain ⟨htab, hext, hfil, hvals⟩ := hu
  have hb : u.build = ("UPDATE " ++ u.filters.table ++ " " ++ (buildSetGo u.values 1 true).1 ++
      (if (build_where_from_filters u.filters.filters (u.values.length + 1)).1 ≠ "" then
        " WHERE " ++ (build_where_from_filters u.filters.filters (u.values.length + 1)).1
        else "") ++
      (if u.extra ≠ "" then " " ++ u.extra else "") ++ " RETURNING *;",
      (buildSetGo u.values 1 true).2
        ++ (build_where_from_filters u.filters.filters (u.values.length + 1)).2) := by
    simp only [UpdateBuilder.build, if_neg hne]
  have hb2 : u.build.2 = u.values.map Prod.snd
      ++ (build_where_from_filters u.filters.filters (u.values.length + 1)).2 := by
    rw [hb]
    show (buildSetGo u.values 1 true).2 ++ _ = _
    rw [buildSetGo_snd]
  refine ⟨?_, hb2⟩
  rw [hb2, List.length_append, List.length_map,
    show (build_where_from_filters u.filters.filters (u.values.length + 1)).2
        = (flatFilters u.filters.filters).map (fun e => e.2.2) from
      buildWhereGo_snd (flatFilters u.filters.filters) (u.values.length + 1) false,
    List.length_map, hb]
  exact phScan_update_assembled u.filters.table u.extra u.values (flatFilters u.filters.filters)
    htab hext hvals (flatFilters_noDollar hfil)

/-! ### `acl/src/lib.rs` and `repo.rs`: errors, ACL engines, repo pipeline -/

/-- `MultipleOperationError` from `repo.rs`. -/
inductive MultipleOperationError where
  | NoData
  | ExtraData (extra : Nat)
deriving DecidableEq

/-- The `failure::Error` values arising in the repo pipeline.
`e.context(msg)` wrapping is modelled explicitly by the `context`
constructor; `UnauthorizedError` by `unauthorized`; `format_err!`/database
errors by `msg`. -/
inductive RepoError where
  | unauthorized
  | multipleOp (e : MultipleOperationError)
  | msg (s : String)
  | context (ctx : String) (e : RepoError)
deriving DecidableEq

/-- The chain of context labels wrapped around an error, outermost first. -/
def RepoError.contexts : RepoError → List String
  | .context c e => c :: e.contexts
  | _ => []

/-- An `AclEngine` is determined by its `allows` method: a (sequentialized)
`Verdict<Context, E>`, i.e. `(bool, ctx)` on success or `(error, ctx)` on
failure. -/
def AclFun (C : Type) := C → Except (RepoError × C) (Bool × C)

/-- `AclEngine::ensure_access` from `acl/src/lib.rs`. -/
def ensureAccess {C : Type} (allows : AclFun C) (ctx : C) : Except (RepoError × C) C :=
  match allows ctx with
  | .error p => .error p
  | .ok (allowed, ctx) => if allowed then .ok ctx else .error (.unauthorized, ctx)

/-- `SystemACL`: allows all manipulation with resources in all cases. -/
def SystemACL {C : Type} : AclFun C := fun ctx => .ok (true, ctx)

/-- `ForbiddenACL`: denies all manipulation with resources in all cases. -/
def ForbiddenACL {C : Type} : AclFun C := fun ctx => .ok (false, ctx)

/-- `Action` from `repo.rs`. -/
inductive Action where
  | Insert
  | Select
  | Delete
  | Update
deriving DecidableEq

/-- An event observable on a repo connection. -/
inductive DbEvent where
  | prepare (q : String)
  | query (args : List Val)
deriving DecidableEq

/-- A scripted double of the `Connection` trait of `connection.rs`: it
records every `prepare2`/`query2` call in `log` and returns the scripted
outcomes. -/
structure MockConn (Row : Type) where
  log : List DbEvent
  prepareErr : Option RepoError
  queryRes : Except RepoError (List Row)

/-- `Connection::prepare2` on the mock: record the call, return the
statement (modelled as `Unit`) or the scripted error, always handing the
connection back. -/
def MockConn.prepare2 {Row : Type} (conn : MockConn Row) (q : String) :
    Except (RepoError × MockConn Row) (Unit × MockConn Row) :=
  let conn' := { conn with log := conn.log ++ [.prepare q] }
  match conn.prepareErr with
  | some e => .error (e, conn')
  | none => .ok ((), conn')

/-- `Connection::query2` (collected into a row vector) on the mock. -/
def MockConn.query2 {Row : Type} (conn : MockConn Row) (args : List Val) :
    Except (RepoError × MockConn Row) (List Row × MockConn Row) :=
  let conn' := { conn with log := conn.log ++ [.query args] }
  match conn.queryRes with
  | .ok rows => .ok (rows, conn')
  | .error e => .error (e, conn')

/-- `Debug` rendering of a bound argument. -/
def Val.debugFmt : Val → String
  | .int n => intRepr n
  | .intList l => "[" ++ String.intercalate ", " (l.map intRepr) ++ "]"

/-- The enumerated fold inside `query_debug`. -/
def argsDebugGo : List Val → Nat → String
  | [], _ => ""
  | a :: rest, i =>
    (if i > 0 then ", " else "") ++ "$" ++ natRepr (i + 1) ++ " = " ++ a.debugFmt
      ++ argsDebugGo rest (i + 1)

/-- `query_debug` from `repo.rs`. -/
def query_debug (q : String) (args : List Val) : String :=
  "Query: " ++ q ++ ". Args: " ++ argsDebugGo args 0

/-- The `future::join_all` over `ensure_access` calls inside
`bulk_ensure_access`: every entity is checked with the given action; the
first failing check determines the error. -/
def ensureAll {T : Type} (acl_engine : AclFun (T × Action)) (action : Action) :
    List T → Except RepoError (List T)
  | [] => .ok []
  | x :: xs =>
    match ensureAccess acl_engine (x, action) with
    | .error (e, _ctx) => .error e
    | .ok ctx =>
      match ensureAll acl_engine action xs with
      | .error e => .error e
      | .ok rest => .ok (ctx.1 :: rest)

/-- `bulk_ensure_access` from `repo.rs`. -/
def bulk_ensure_access {Row T : Type} (acl_engine : AclFun (T × Action))
    (context : List T × Action) (conn : MockConn Row) :
    Except (RepoError × MockConn Row) (List T × MockConn Row) :=
  match ensureAll acl_engine context.2 context.1 with
  | .ok items => .ok (items, conn)
  | .error e => .error (e, conn)

/-- `DbRepoImpl` from `repo.rs`.  The `Inserter`/`Filter`/`Updater` trait
conversions and the `T: From<Row>` conversion are carried as explicit
fields. -/
structure DbRepoImpl (Row T I F U : Type) where
  table : String
  insert_acl_engine : AclFun I
  select_acl_engine : AclFun F
  delete_acl_engine : AclFun F
  update_acl_engine : AclFun U
  afterop_acl_engine : AclFun (T × Action)
  ofRow : Row → T
  into_insert_builder : I → String → InsertBuilder
  into_filtered_operation_builder : F → String → FilteredOperationBuilder
  into_update_builder : U → String → UpdateBuilder

def DbRepoImpl.with_insert_acl_engine {Row T I F U : Type} (self : DbRepoImpl Row T I F U)
    (acl_engine : AclFun I) : DbRepoImpl Row T I F U :=
  { self with insert_acl_engine := acl_engine }

def DbRepoImpl.with_select_acl_engine {Row T I F U : Type} (self : DbRepoImpl Row T I F U)
    (acl_engine : AclFun F) : DbRepoImpl Row T I F U :=
  { self with select_acl_engine := acl_engine }

def DbRepoImpl.with_delete_acl_engine {Row T I F U : Type} (self : DbRepoImpl Row T I F U)
    (acl_engine : AclFun F) : DbRepoImpl Row T I F U :=
  { self with delete_acl_engine := acl_engine }

def DbRepoImpl.with_update_acl_engine {Row T I F U : Type} (self : DbRepoImpl Row T I F U)
    (acl_engine : AclFun U) : DbRepoImpl Row T I F U :=
  { self with update_acl_engine := acl_engine }

def DbRepoImpl.with_afterop_acl_engine {Row T I F U : Type} (self : DbRepoImpl Row T I F U)
    (acl_engine : AclFun (T × Action)) : DbRepoImpl Row T I F U :=
  { self with afterop_acl_engine := acl_engine }

/-- `DbRepoInsert::insert for DbRepoImpl`, sequentialized.  The trailing
`map_err` attaches the stage label to every failure path; the `query2`
failure path is additionally wrapped with `query_debug` of the statement. -/
def DbRepoImpl.insert {Row T I F U : Type} (self : DbRepoImpl Row T I F U)
    (conn : MockConn Row) (inserter : I) :
    Except (RepoError × MockConn Row) (List T × MockConn Row) :=
  let chain : Except (RepoError × MockConn Row) (List T × MockConn Row) :=
    match ensureAccess self.insert_acl_engine inserter with
    | .error (e, _inserter) => .error (e, conn)
    | .ok inserter =>
      let qa := (self.into_insert_builder inserter self.table).build
      match conn.prepare2 qa.1 with
      | .error p => .error p
      | .ok (_, conn) =>
        let err_msg := query_debug qa.1 qa.2
        match conn.query2 qa.2 with
        | .error (e, conn) => .error (.context err_msg e, conn)
        | .ok (rows, conn) =>
          bulk_ensure_access self.afterop_acl_engine (rows.map self.ofRow, Action.Insert) conn
  match chain with
  | .ok r => .ok r
  | .error (e, conn) => .error (.context "Failure while running insert" e, conn)

/-- `DbRepoSelect::select_full for DbRepoImpl`, sequentialized. -/
def DbRepoImpl.select_full {Row T I F U : Type} (self : DbRepoImpl Row T I F U)
    (conn : MockConn Row) (filter : F) (limit : Option Int) (op : Option SelectOperation) :
    Except (RepoError × MockConn Row) (List T × MockConn Row) :=
  let chain : Except (RepoError × MockConn Row) (List T × MockConn Row) :=
    match ensureAccess self.select_acl_engine filter with
    | .error (e, _filter) => .error (e, conn)
    | .ok filter =>
      let proceed : MockConn Row → Except (RepoError × MockConn Row) (List T × MockConn Row) :=
        fun conn =>
          let qa := (self.into_filtered_operation_builder filter self.table).build
            (.Select op limit)
          match conn.prepare2 qa.1 with
          | .error p => .error p
          | .ok (_, conn) =>
            let err_msg := query_debug qa.1 qa.2
            match conn.query2 qa.2 with
            | .error (e, conn) => .error (.context err_msg e, conn)
            | .ok (rows, conn) =>
              bulk_ensure_access self.afterop_acl_engine (rows.map self.ofRow, Action.Select) conn
      match limit with
      | some l =>
        if l < 1 then .error (.msg "Limit cannot be less than 1", conn) else proceed conn
      | none => proceed conn
  match chain with
  | .ok r => .ok r
  | .error (e, conn) => .error (.context "Failure while running select" e, conn)

/-- `DbRepoSelect::select` (the default method). -/
def DbRepoImpl.select {Row T I F U : Type} (self : DbRepoImpl Row T I F U)
    (conn : MockConn Row) (filter : F) :
    Except (RepoError × MockConn Row) (List T × MockConn Row) :=
  self.select_full conn filter none none

/-- `DbRepoUpdate::update for DbRepoImpl`, sequentialized. -/
def DbRepoImpl.update {Row T I F U : Type} (self : DbRepoImpl Row T I F U)
    (conn : MockConn Row) (updater : U) :
    Except (RepoError × MockConn Row) (List T × MockConn Row) :=
  let chain : Except (RepoError × MockConn Row) (List T × MockConn Row) :=
    match ensureAccess self.update_acl_engine updater with
    | .error (e, _updater) => .error (e, conn)
    | .ok updater =>
      let qa := (self.into_update_builder updater self.table).build
      match conn.prepare2 qa.1 with
      | .error p => .error p
      | .ok (_, conn) =>
        let err_msg := query_debug qa.1 qa.2
        match conn.query2 qa.2 with
        | .error (e, conn) => .error (.context err_msg e, conn)
        | .ok (rows, conn) =>
          bulk_ensure_access self.afterop_acl_engine (rows.map self.ofRow, Action.Update) conn
  match chain with
  | .ok r => .ok r
  | .error (e, conn) => .error (.context "Failure while running update" e, conn)

/-- `DbRepoDelete::delete for DbRepoImpl`, sequentialized. -/
def DbRepoImpl.delete {Row T I F U : Type} (self : DbRepoImpl Row T I F U)
    (conn : MockConn Row) (filter : F) :
    Except (RepoError × MockConn Row) (List T × MockConn Row) :=
  let chain : Except (RepoError × MockConn Row) (List T × MockConn Row) :=
    match ensureAccess self.delete_acl_engine filter with
    | .error (e, _filter) => .error (e, conn)
    | .ok filter =>
      let qa := (self.into_filtered_operation_builder filter self.table).build .Delete
      match conn.prepare2 qa.1 with
      | .error p => .error p
      | .ok (_, conn) =>
        let err_msg := query_debug qa.1 qa.2
        match conn.query2 qa.2 with
        | .error (e, conn) => .error (.context err_msg e, conn)
        | .ok (rows, conn) =>
          bulk_ensure_access self.afterop_acl_engine (rows.map self.ofRow, Action.Delete) conn
  match chain with
  | .ok r => .ok r
  | .error (e, conn) => .error (.context "Failure while running delete" e, conn)

/-- The common `and_then` body of the four `*_exactly_one` default methods:
more than one row is `ExtraData { extra: n - 1 }`, zero rows is `NoData`,
one row is popped and returned; the connection always rides along. -/
def exactly_one {Row T : Type} (res : Except (RepoError × MockConn Row) (List T × MockConn Row)) :
    Except (RepoError × MockConn Row) (T × MockConn Row) :=
  match res with
  | .error p => .error p
  | .ok (data, conn) =>
    if data.length > 1 then
      .error (.multipleOp (.ExtraData (data.length - 1)), conn)
    else
      match data.getLast? with
      | none => .error (.multipleOp .NoData, conn)
      | some x => .ok (x, conn)

def DbRepoImpl.insert_exactly_one {Row T I F U : Type} (self : DbRepoImpl Row T I F U)
    (conn : MockConn Row) (inserter : I) : Except (RepoError × MockConn Row) (T × MockConn Row) :=
  exactly_one (self.insert conn inserter)

def DbRepoImpl.select_exactly_one {Row T I F U : Type} (self : DbRepoImpl Row T I F U)
    (conn : MockConn Row) (filter : F) : Except (RepoError × MockConn Row) (T × MockConn Row) :=
  exactly_one (self.select conn filter)

def DbRepoImpl.update_exactly_one {Row T I F U : Type} (self : DbRepoImpl Row T I F U)
    (conn : MockConn Row) (updater : U) : Except (RepoError × MockConn Row) (T × MockConn Row) :=
  exactly_one (self.update conn updater)

def DbRepoImpl.delete_exactly_one {Row T I F U : Type} (self : DbRepoImpl Row T I F U)
    (conn : MockConn Row) (filter : F) : Except (RepoError × MockConn Row) (T × MockConn Row) :=
  exactly_one (self.delete conn filter)

/-! ### `pool.rs`: transactional unit of work -/

/-- A spy transactional connection: counts `commit2`/`rollback2`
invocations and carries scripted outcomes for them, since
`Connection::commit2`/`rollback2 for Transaction` (connection.rs) are
fallible — each returns either `((), conn)` or `(error, conn)`. -/
structure SpyConn (E : Type) where
  commits : Nat
  rollbacks : Nat
  commitErr : Option E
  rollbackErr : Option E
deriving DecidableEq

/-- `Connection::commit2 for Transaction` on the spy: the invocation is
counted; the scripted error, if any, is returned alongside the
connection. -/
def SpyConn.commit2 {E : Type} (conn : SpyConn E) :
    Except (E × SpyConn E) (Unit × SpyConn E) :=
  let conn' := { conn with commits := conn.commits + 1 }
  match conn.commitErr with
  | some e => .error (e, conn')
  | none => .ok ((), conn')

/-- `Connection::rollback2 for Transaction` on the spy, likewise fallible
and counted. -/
def SpyConn.rollback2 {E : Type} (conn : SpyConn E) :
    Except (E × SpyConn E) (Unit × SpyConn E) :=
  let conn' := { conn with rollbacks := conn.rollbacks + 1 }
  match conn.rollbackErr with
  | some e => .error (e, conn')
  | none => .ok ((), conn')

/-- The pooled plain connection handed to the closure of `Pool::run`:
`conn.transaction()` either yields the transactional connection or fails,
handing the plain connection back. -/
structure PoolConn (E : Type) where
  transactionErr : Option E
  tx : SpyConn E
deriving DecidableEq

/-- `conn.transaction().map_err(…)` at the head of `Pool::run`. -/
def PoolConn.transaction {E : Type} (conn : PoolConn E) :
    Except (E × PoolConn E) (SpyConn E) :=
  match conn.transactionErr with
  | some e => .error (e, conn)
  | none => .ok conn.tx

/-- `Pool::run` from `pool.rs`, sequentialized: open the transaction (on
failure nothing else runs), run the caller's unit of work `f`, then
`commit2` on success — a commit failure is propagated by the `map` — or
`rollback2` on failure — the chain's error is re-raised by the `and_then`
only after a successful rollback, so a rollback failure replaces it.  In
the transaction-failure case the untouched spy is reported so the
invocation counts stay observable. -/
def Pool.run {T E : Type} (f : SpyConn E → Except (E × SpyConn E) (T × SpyConn E))
    (conn : PoolConn E) : Except (E × SpyConn E) (T × SpyConn E) :=
  match conn.transaction with
  | .error (e, conn) => .error (e, conn.tx)
  | .ok t =>
    match f t with
    | .ok (v, conn) =>
      match conn.commit2 with
      | .ok (_, conn) => .ok (v, conn)
      | .error p => .error p
    | .error (e, conn) =>
      match conn.rollback2 with
      | .ok (_, conn) => .error (e, conn)
      | .error p => .error p

/-- A concrete spy with no scripted commit/rollback failures. -/
def sampleSpy : SpyConn Nat :=
  { commits := 0, rollbacks := 0, commitErr := none, rollbackErr := none }

/-- A concrete pooled connection whose transaction opens successfully. -/
def samplePoolConn : PoolConn Nat := { transactionErr := none, tx := sampleSpy }

/-- A concrete repo instance over integer rows, for witnesses. -/
def sampleRepo : DbRepoImpl Int Int Unit Unit Unit where
  table := "t"
  insert_acl_engine := SystemACL
  select_acl_engine := SystemACL
  delete_acl_engine := SystemACL
  update_acl_engine := SystemACL
  afterop_acl_engine := SystemACL
  ofRow := fun r => r
  into_insert_builder := fun _ t => (InsertBuilder.new t).with_arg "a" (.int 1)
  into_filtered_operation_builder := fun _ t =>
    (FilteredOperationBuilder.new t).with_filter "a" (.Exact (.int 1))
  into_update_builder := fun _ t =>
    (UpdateBuilder.fromFiltered
      ((FilteredOperationBuilder.new t).with_filter "a" (.Exact (.int 1)))).with_value "b"
      (.int 2)

/-- The select builder of the spec's worked example. -/
def sampleSelectBuilder : FilteredOperationBuilder :=
  ((FilteredOperationBuilder.new "t").with_filter "a" (.Exact (.int 3))).with_filter "b"
    (.Between ⟨.int 25, false⟩ ⟨.int 125, true⟩)

/-- An update builder with two SET values over the sample filter. -/
def sampleUpdateBuilder : UpdateBuilder :=
  ((UpdateBuilder.fromFiltered sampleSelectBuilder).with_value "u" (.int 1)).with_value "v"
    (.int 2)

/-- A concrete scripted connection over integer rows, for witnesses. -/
def sampleConn : MockConn Int where
  log := []
  prepareErr := none
  queryRes := .ok []

/-! ### The specification claims -/

/-- C1: for every statement produced by the builders, the bound-argument
count equals the `$n` placeholder count and the indices are `1, 2, …` with
no gaps (`placeholders … = List.range' 1 args.length`, whose length is
`args.length`).  In SELECT/DELETE the arguments are the flattened filters in
map order — lexicographic by column since `with_filter` keeps the keys
sorted — with indices assigned in that order; in an UPDATE with at least one
value, SET parameters take `$1 … $k`, WHERE parameters continue at
`$(k+1)`, and the argument vector lists SET values before filter values. -/
theorem claim_C1_placeholders_contiguous (b : FilteredOperationBuilder)
    (op : FilteredOperation) (u : UpdateBuilder) (hb : b.wf) (hu : u.wf)
    (hne : ¬u.values = []) (c : String) (rg : Range) :
    (placeholders (b.build op).1 = List.range' 1 (b.build op).2.length ∧
      (b.build op).2 = (flatFilters b.filters).map (fun e => e.2.2)) ∧
    (placeholders u.build.1 = List.range' 1 u.build.2.length ∧
      u.build.2 = u.values.map Prod.snd
        ++ (build_where_from_filters u.filters.filters (u.values.length + 1)).2) ∧
    (keysSorted b.filters → keysSorted ((b.with_filter c rg).filters)) :=
  ⟨build_placeholders b op hb, update_build_characterization u hu hne,
    fun hs => keysSorted_insertSorted c _ hs⟩

theorem claim_C1_witness :
    (sampleSelectBuilder.wf ∧ sampleUpdateBuilder.wf ∧ ¬sampleUpdateBuilder.values = []) ∧
    ((placeholders (sampleSelectBuilder.build (.Select (some .Count) (some 5))).1
          = List.range' 1 (sampleSelectBuilder.build (.Select (some .Count) (some 5))).2.length ∧
        (sampleSelectBuilder.build (.Select (some .Count) (some 5))).2
          = (flatFilters sampleSelectBuilder.filters).map (fun e => e.2.2)) ∧
      (placeholders sampleUpdateBuilder.build.1
          = List.range' 1 sampleUpdateBuilder.build.2.length ∧
        sampleUpdateBuilder.build.2 = sampleUpdateBuilder.values.map Prod.snd
          ++ (build_where_from_filters sampleUpdateBuilder.filters.filters
              (sampleUpdateBuilder.values.length + 1)).2) ∧
      (keysSorted sampleSelectBuilder.filters →
        keysSorted ((sampleSelectBuilder.with_filter "c" (.Exact (.int 1))).filters))) :=
  ⟨⟨by decide, by decide, by decide⟩,
    claim_C1_placeholders_contiguous sampleSelectBuilder (.Select (some .Count) (some 5))
      sampleUpdateBuilder (by decide) (by decide) (by decide) "c" (.Exact (.int 1))⟩

/-- C2: `FilteredOperationBuilder::new("t")` with filter `a = 3` and filter
`b ∈ (25, 125]` built as `Select{op: Some(Count), limit: Some(5)}` returns
exactly this SQL string paired with the arguments `[3, 25, 125]`. -/
theorem claim_C2_example_select :
    (((FilteredOperationBuilder.new "t").with_filter "a" (.Exact (.int 3))).with_filter "b"
        (.Between ⟨.int 25, false⟩ ⟨.int 125, true⟩)).build (.Select (some .Count) (some 5))
      = ("SELECT count(*) FROM t WHERE a = $1 AND b > $2 AND b <= $3 LIMIT 5;",
        [.int 3, .int 25, .int 125]) := by
  decide

/-- C3 counterexample: the claim fails on the code as stated.  With a chain
failing with error `1` on a connection whose rollback is scripted to fail
with `2`, `Pool::run` propagates `2` — not the original chain error `1` —
because the `and_then` after `rollback2` re-raises the chain's error only
when the rollback succeeds.  And when the transaction fails to open with
error `3`, neither `commit2` nor `rollback2` is ever invoked. -/
theorem claim_C3_counterexample :
    (Pool.run
        (fun c => (Except.error ((1 : Nat), c) : Except (Nat × SpyConn Nat) (Nat × SpyConn Nat)))
        { transactionErr := none,
          tx := { commits := 0, rollbacks := 0, commitErr := none, rollbackErr := some 2 } }
        = .error (2, { commits := 0, rollbacks := 1, commitErr := none, rollbackErr := some 2 })
      ∧ (2 : Nat) ≠ 1) ∧
    (Pool.run
        (fun c => (Except.ok ((0 : Nat), c) : Except (Nat × SpyConn Nat) (Nat × SpyConn Nat)))
        { transactionErr := some 3, tx := sampleSpy }
        = .error (3, sampleSpy)
      ∧ sampleSpy.commits = 0 ∧ sampleSpy.rollbacks = 0) :=
  ⟨⟨rfl, by decide⟩, rfl, rfl, rfl⟩

/-- C3 (amended): for every unit of work run through `Pool::run` whose
transaction opens, exactly one of `commit2`/`rollback2` is invoked on the
transactional connection — `commit2` if and only if the chain resolved,
`rollback2` if and only if it failed, never both and never neither.  A
failing chain's original error `e` is the error propagated provided the
rollback itself succeeds; a failing `rollback2` propagates the rollback
error in place of `e`, and a failing `commit2` propagates the commit
error.  If the transaction cannot be opened, its error is propagated and
neither `commit2` nor `rollback2` is invoked. -/
theorem claim_C3_amended_pool_run {T E : Type}
    (f : SpyConn E → Except (E × SpyConn E) (T × SpyConn E)) (conn : PoolConn E) :
    (∀ e, conn.transactionErr = some e → Pool.run f conn = .error (e, conn.tx)) ∧
    (∀ v c1, conn.transactionErr = none → f conn.tx = .ok (v, c1) →
      (c1.commitErr = none →
        Pool.run f conn = .ok (v, { c1 with commits := c1.commits + 1 })) ∧
      (∀ e', c1.commitErr = some e' →
        Pool.run f conn = .error (e', { c1 with commits := c1.commits + 1 }))) ∧
    (∀ e c1, conn.transactionErr = none → f conn.tx = .error (e, c1) →
      (c1.rollbackErr = none →
        Pool.run f conn = .error (e, { c1 with rollbacks := c1.rollbacks + 1 })) ∧
      (∀ e', c1.rollbackErr = some e' →
        Pool.run f conn = .error (e', { c1 with rollbacks := c1.rollbacks + 1 }))) := by
  refine ⟨?_, ?_, ?_⟩
  · intro e he
    simp only [Pool.run, PoolConn.transaction, he]
  · intro v c1 ht hf
    constructor
    · intro hc
      simp only [Pool.run, PoolConn.transaction, ht, hf, SpyConn.commit2, hc]
    · intro e' hc
      simp only [Pool.run, PoolConn.transaction, ht, hf, SpyConn.commit2, hc]
  · intro e c1 ht hf
    constructor
    · intro hr
      simp only [Pool.run, PoolConn.transaction, ht, hf, SpyConn.rollback2, hr]
    · intro e' hr
      simp only [Pool.run, PoolConn.transaction, ht, hf, SpyConn.rollback2, hr]

theorem claim_C3_witness :
    (samplePoolConn.transactionErr = none ∧
      (fun c => (Except.error ((1 : Nat), c) : Except (Nat × SpyConn Nat) (Nat × SpyConn Nat)))
          samplePoolConn.tx
        = .error (1, sampleSpy) ∧
      sampleSpy.rollbackErr = none) ∧
    Pool.run
        (fun c => (Except.error ((1 : Nat), c) : Except (Nat × SpyConn Nat) (Nat × SpyConn Nat)))
        samplePoolConn
      = .error (1, { sampleSpy with rollbacks := sampleSpy.rollbacks + 1 }) :=
  ⟨⟨rfl, rfl, rfl⟩,
    ((claim_C3_amended_pool_run _ samplePoolConn).2.2 1 sampleSpy rfl rfl).1 rfl⟩

/-- C4: with the always-deny `ForbiddenACL` wired as the pre-operation
engine, each of the four repo operations fails with the authorization error
(wrapped in its stage label), the returned connection is exactly the
original one — so neither `prepare2` nor `query2` was invoked and no SQL
was issued — and the connection rides along with the error. -/
theorem claim_C4_pre_acl_deny_blocks {Row T I F U : Type} (repo : DbRepoImpl Row T I F U)
    (conn : MockConn Row) (ins : I) (fil : F) (upd : U) (lim : Option Int)
    (sop : Option SelectOperation) :
    ((repo.with_insert_acl_engine ForbiddenACL).insert conn ins
        = .error (.context "Failure while running insert" .unauthorized, conn)) ∧
    ((repo.with_select_acl_engine ForbiddenACL).select_full conn fil lim sop
        = .error (.context "Failure while running select" .unauthorized, conn)) ∧
    ((repo.with_delete_acl_engine ForbiddenACL).delete conn fil
        = .error (.context "Failure while running delete" .unauthorized, conn)) ∧
    ((repo.with_update_acl_engine ForbiddenACL).update conn upd
        = .error (.context "Failure while running update" .unauthorized, conn)) :=
  ⟨rfl, rfl, rfl, rfl⟩

/-- C5: the afterop engine is run over every resulting `(entity, Action)`
pair and the first failure fails the whole operation with that error (no
partial list): with an always-allow pre-operation engine and an always-deny
afterop engine, an insert whose SQL returns at least one row still fails,
even though the prepare and query were issued. -/
theorem claim_C5_afterop_deny_fails {Row T I F U : Type} (repo : DbRepoImpl Row T I F U)
    (log0 : List DbEvent) (rows : List Row) (hrows : rows ≠ []) (ins : I) :
    (∀ (eng : AclFun (T × Action)) (items : List T) (action : Action)
        (conn : MockConn Row) (e : RepoError),
      ensureAll eng action items = .error e →
      bulk_ensure_access eng (items, action) conn = .error (e, conn)) ∧
    ((repo.with_insert_acl_engine SystemACL).with_afterop_acl_engine ForbiddenACL).insert
        { log := log0, prepareErr := none, queryRes := .ok rows } ins
      = .error (.context "Failure while running insert" .unauthorized,
          { log := (log0 ++ [.prepare ((repo.into_insert_builder ins repo.table).build).1])
              ++ [.query ((repo.into_insert_builder ins repo.table).build).2],
            prepareErr := none, queryRes := .ok rows }) := by
  constructor
  · intro eng items action conn e h
    rw [bulk_ensure_access, h]
  · cases rows with
    | nil => exact absurd rfl hrows
    | cons x xs => rfl

theorem claim_C5_witness :
    (([7] : List Int) ≠ []) ∧
    ((∀ (eng : AclFun (Int × Action)) (items : List Int) (action : Action)
        (conn : MockConn Int) (e : RepoError),
      ensureAll eng action items = .error e →
      bulk_ensure_access eng (items, action) conn = .error (e, conn)) ∧
    ((sampleRepo.with_insert_acl_engine SystemACL).with_afterop_acl_engine ForbiddenACL).insert
        { log := [], prepareErr := none, queryRes := .ok [7] } ()
      = .error (.context "Failure while running insert" .unauthorized,
          { log := ([] ++ [.prepare ((sampleRepo.into_insert_builder () sampleRepo.table).build).1])
              ++ [.query ((sampleRepo.into_insert_builder () sampleRepo.table).build).2],
            prepareErr := none, queryRes := .ok [7] })) :=
  ⟨by decide, claim_C5_afterop_deny_fails sampleRepo [] [7] (by decide) ()⟩

/-- C6: each `*_exactly_one` helper is exactly `exactly_one` of the wrapped
bulk operation, and on a bulk success with `n` rows: `n = 0` yields
`NoData`, `n > 1` yields `ExtraData{extra: n - 1}`, `n = 1` yields the
single entity unwrapped — the connection riding along in every case. -/
theorem claim_C6_exactly_one_cardinality {Row T I F U : Type} (repo : DbRepoImpl Row T I F U)
    (conn0 : MockConn Row) (ins : I) (fil : F) (upd : U) (data : List T)
    (conn : MockConn Row) :
    (repo.insert_exactly_one conn0 ins = exactly_one (repo.insert conn0 ins)) ∧
    (repo.select_exactly_one conn0 fil = exactly_one (repo.select conn0 fil)) ∧
    (repo.update_exactly_one conn0 upd = exactly_one (repo.update conn0 upd)) ∧
    (repo.delete_exactly_one conn0 fil = exactly_one (repo.delete conn0 fil)) ∧
    (data = [] → exactly_one (.ok (data, conn)) = .error (.multipleOp .NoData, conn)) ∧
    (∀ x, data = [x] → exactly_one (.ok (data, conn)) = .ok (x, conn)) ∧
    (data.length > 1 →
      exactly_one (.ok (data, conn))
        = .error (.multipleOp (.ExtraData (data.length - 1)), conn)) := by
  refine ⟨rfl, rfl, rfl, rfl, ?_, ?_, ?_⟩
  · intro h
    subst h
    rfl
  · intro x h
    subst h
    rfl
  · intro h
    simp only [exactly_one]
    rw [if_pos h]

theorem claim_C6_witness :
    (([5] : List Int) = [5]) ∧
      exactly_one (.ok (([5] : List Int), sampleConn)) = .ok (5, sampleConn) :=
  ⟨rfl, (claim_C6_exactly_one_cardinality sampleRepo sampleConn () () () [5]
      sampleConn).2.2.2.2.2.1 5 rfl⟩

/-- C7: an `UpdateBuilder` with no SET values builds exactly the `(SQL,
args)` pair of the equivalent `Select{op: None, limit: None}` over the same
filter — never an UPDATE — including when `with_extra` was called on the
`UpdateBuilder` after it was constructed from the
`FilteredOperationBuilder`. -/
theorem claim_C7_update_no_values_degrades (u : UpdateBuilder) (hu : u.values = [])
    (f : FilteredOperationBuilder) (ex : String) :
    u.build = u.filters.build (.Select none none) ∧
    ((UpdateBuilder.fromFiltered f).with_extra ex).build = f.build (.Select none none) := by
  constructor
  · simp only [UpdateBuilder.build, if_pos hu]
  · rfl

theorem claim_C7_witness :
    ((UpdateBuilder.fromFiltered sampleSelectBuilder).values = []) ∧
    ((UpdateBuilder.fromFiltered sampleSelectBuilder).build
        = (UpdateBuilder.fromFiltered sampleSelectBuilder).filters.build (.Select none none) ∧
      ((UpdateBuilder.fromFiltered sampleSelectBuilder).with_extra "ORDER BY a").build
        = sampleSelectBuilder.build (.Select none none)) :=
  ⟨rfl, claim_C7_update_no_values_degrades (UpdateBuilder.fromFiltered sampleSelectBuilder) rfl
    sampleSelectBuilder "ORDER BY a"⟩

/-- C8 counterexample: a prepare-step failure is propagated wrapped with
the stage label only — the literal query text and argument rendering
(`query_debug`) are not attached, contradicting the claim for the prepare
step. -/
theorem claim_C8_counterexample :
    (sampleRepo.insert { log := [], prepareErr := some (.msg "boom"), queryRes := .ok [] } ()
      = .error (.context "Failure while running insert" (.msg "boom"),
          { log := [.prepare ((sampleRepo.into_insert_builder () sampleRepo.table).build).1],
            prepareErr := some (.msg "boom"), queryRes := .ok [] })) ∧
    (RepoError.context "Failure while running insert" (.msg "boom")).contexts
      = ["Failure while running insert"] ∧
    query_debug ((sampleRepo.into_insert_builder () sampleRepo.table).build).1
        ((sampleRepo.into_insert_builder () sampleRepo.table).build).2
      ∉ (RepoError.context "Failure while running insert" (.msg "boom")).contexts := by
  refine ⟨rfl, rfl, ?_⟩
  decide

/-- C8 (amended): an error from the execute (query) step is propagated
wrapped with `query_debug` of the literal query and its bound arguments
plus the stage label of the operation; an error from the prepare step is
propagated wrapped with the stage label only. -/
theorem claim_C8_amended_error_context {Row T I F U : Type} (repo : DbRepoImpl Row T I F U)
    (log0 : List DbEvent) (e : RepoError) (qres : Except RepoError (List Row))
    (ins : I) (fil : F) (upd : U) (sop : Option SelectOperation) :
    ((repo.with_insert_acl_engine SystemACL).insert
        { log := log0, prepareErr := some e, queryRes := qres } ins
      = .error (.context "Failure while running insert" e,
          { log := log0 ++ [.prepare ((repo.into_insert_builder ins repo.table).build).1],
            prepareErr := some e, queryRes := qres })) ∧
    ((repo.with_insert_acl_engine SystemACL).insert
        { log := log0, prepareErr := none, queryRes := .error e } ins
      = .error (.context "Failure while running insert"
            (.context (query_debug ((repo.into_insert_builder ins repo.table).build).1
              ((repo.into_insert_builder ins repo.table).build).2) e),
          { log := (log0 ++ [.prepare ((repo.into_insert_builder ins repo.table).build).1])
              ++ [.query ((repo.into_insert_builder ins repo.table).build).2],
            prepareErr := none, queryRes := .error e })) ∧
    ((repo.with_select_acl_engine SystemACL).select_full
        { log := log0, prepareErr := some e, queryRes := qres } fil none sop
      = .error (.context "Failure while running select" e,
          { log := log0 ++ [.prepare ((repo.into_filtered_operation_builder fil
              repo.table).build (.Select sop none)).1],
            prepareErr := some e, queryRes := qres })) ∧
    ((repo.with_select_acl_engine SystemACL).select_full
        { log := log0, prepareErr := none, queryRes := .error e } fil none sop
      = .error (.context "Failure while running select"
            (.context (query_debug ((repo.into_filtered_operation_builder fil
                repo.table).build (.Select sop none)).1
              ((repo.into_filtered_operation_builder fil repo.table).build
                (.Select sop none)).2) e),
          { log := (log0 ++ [.prepare ((repo.into_filtered_operation_builder fil
                repo.table).build (.Select sop none)).1])
              ++ [.query ((repo.into_filtered_operation_builder fil repo.table).build
                (.Select sop none)).2],
            prepareErr := none, queryRes := .error e })) ∧
    ((repo.with_update_acl_engine SystemACL).update
        { log := log0, prepareErr := some e, queryRes := qres } upd
      = .error (.context "Failure while running update" e,
          { log := log0 ++ [.prepare ((repo.into_update_builder upd repo.table).build).1],
            prepareErr := some e, queryRes := qres })) ∧
    ((repo.with_update_acl_engine SystemACL).update
        { log := log0, prepareErr := none, queryRes := .error e } upd
      = .error (.context "Failure while running update"
            (.context (query_debug ((repo.into_update_builder upd repo.table).build).1
              ((repo.into_update_builder upd repo.table).build).2) e),
          { log := (log0 ++ [.prepare ((repo.into_update_builder upd repo.table).build).1])
              ++ [.query ((repo.into_update_builder upd repo.table).build).2],
            prepareErr := none, queryRes := .error e })) ∧
    ((repo.with_delete_acl_engine SystemACL).delete
        { log := log0, prepareErr := some e, queryRes := qres } fil
      = .error (.context "Failure while running delete" e,
          { log := log0 ++ [.prepare ((repo.into_filtered_operation_builder fil
              repo.table).build .Delete).1],
            prepareErr := some e, queryRes := qres })) ∧
    ((repo.with_delete_acl_engine SystemACL).delete
        { log := log0, prepareErr := none, queryRes := .error e } fil
      = .error (.context "Failure while running delete"
            (.context (query_debug ((repo.into_filtered_operation_builder fil
                repo.table).build .Delete).1
              ((repo.into_filtered_operation_builder fil repo.table).build .Delete).2) e),
          { log := (log0 ++ [.prepare ((repo.into_filtered_operation_builder fil
                repo.table).build .Delete).1])
              ++ [.query ((repo.into_filtered_operation_builder fil repo.table).build
                .Delete).2],
            prepareErr := none, queryRes := .error e })) :=
  ⟨rfl, rfl, rfl, rfl, rfl, rfl, rfl, rfl⟩

/-- C9: `bulk_ensure_access` over an empty entity list succeeds for every
afterop engine without consulting it, so an operation whose SQL succeeds
with zero rows resolves successfully even under the always-deny
`ForbiddenACL` afterop engine, for all four operations. -/
theorem claim_C9_empty_rows_afterop_ok {Row T I F U : Type} (repo : DbRepoImpl Row T I F U)
    (log0 : List DbEvent) (ins : I) (fil : F) (upd : U) (sop : Option SelectOperation)
    (eng : AclFun (T × Action)) (action : Action) (conn : MockConn Row) :
    (bulk_ensure_access eng (([] : List T), action) conn = .ok ([], conn)) ∧
    (((repo.with_insert_acl_engine SystemACL).with_afterop_acl_engine ForbiddenACL).insert
        { log := log0, prepareErr := none, queryRes := .ok [] } ins
      = .ok ([],
          { log := (log0 ++ [.prepare ((repo.into_insert_builder ins repo.table).build).1])
                ++ [.query ((repo.into_insert_builder ins repo.table).build).2],
            prepareErr := none, queryRes := .ok [] })) ∧
    (((repo.with_select_acl_engine SystemACL).with_afterop_acl_engine ForbiddenACL).select_full
        { log := log0, prepareErr := none, queryRes := .ok [] } fil none sop
      = .ok ([],
          { log := (log0
                  ++ [.prepare ((repo.into_filtered_operation_builder fil repo.table).build
                      (.Select sop none)).1])
                ++ [.query ((repo.into_filtered_operation_builder fil repo.table).build
                    (.Select sop none)).2],
            prepareErr := none, queryRes := .ok [] })) ∧
    (((repo.with_update_acl_engine SystemACL).with_afterop_acl_engine ForbiddenACL).update
        { log := log0, prepareErr := none, queryRes := .ok [] } upd
      = .ok ([],
          { log := (log0 ++ [.prepare ((repo.into_update_builder upd repo.table).build).1])
                ++ [.query ((repo.into_update_builder upd repo.table).build).2],
            prepareErr := none, queryRes := .ok [] })) ∧
    (((repo.with_delete_acl_engine SystemACL).with_afterop_acl_engine ForbiddenACL).delete
        { log := log0, prepareErr := none, queryRes := .ok [] } fil
      = .ok ([],
          { log := (log0
                  ++ [.prepare ((repo.into_filtered_operation_builder fil repo.table).build
                      .Delete).1])
                ++ [.query ((repo.into_filtered_operation_builder fil repo.table).build
                    .Delete).2],
            prepareErr := none, queryRes := .ok [] })) :=
  ⟨rfl, rfl, rfl, rfl, rfl⟩

/-- C10: `with_limit` has no effect on the built statement: `build` derives
the LIMIT clause solely from the `limit` field of the
`FilteredOperation::Select` argument and never reads the builder's own
`limit` field. -/
theorem claim_C10_with_limit_no_effect (b : FilteredOperationBuilder) (l : Option Int)
    (op : FilteredOperation) :
    (b.with_limit l).build op = b.build op := rfl

end Stq
